import Mathlib

/-!
Verification of the isod download/registry core against its specification.
The Rust sources are shallowly embedded: pure functions become Lean
functions, the retry loop of the download engine becomes a fuel-indexed
recursion, and the network, the file system and the hash primitives are
abstracted as explicit oracle parameters.
-/

namespace Isod

/-- Decidable equality for `Except`, so that concrete runs of the
fallible operations can be checked by evaluation. -/
instance {ε α : Type} [DecidableEq ε] [DecidableEq α] : DecidableEq (Except ε α) := fun x y =>
  match x, y with
  | Except.ok a, Except.ok b =>
    if h : a = b then Decidable.isTrue (by rw [h])
    else Decidable.isFalse (by intro hc; cases hc; exact h rfl)
  | Except.error a, Except.error b =>
    if h : a = b then Decidable.isTrue (by rw [h])
    else Decidable.isFalse (by intro hc; cases hc; exact h rfl)
  | Except.ok _, Except.error _ => Decidable.isFalse (fun hc => nomatch hc)
  | Except.error _, Except.ok _ => Decidable.isFalse (fun hc => nomatch hc)

/-! ### String helpers (model of Rust `str::replace` and ASCII lowering) -/

/-- Boolean test that `pat` is a prefix of `l` (character lists). -/
def listStartsWith : List Char → List Char → Bool
  | [], _ => true
  | _ :: _, [] => false
  | p :: ps, c :: cs => p == c && listStartsWith ps cs

/-- Worker for `strReplace`: scans the text left to right, replacing each
non-overlapping occurrence of `pat` by `rep`, exactly as Rust
`str::replace` does.  `fuel` bounds the number of scan steps; callers pass
the length of the text, which suffices because every step consumes at
least one character, so the fuel-exhausted branch is unreachable. -/
def replaceGo (pat rep : List Char) : Nat → List Char → List Char
  | _, [] => []
  | 0, l => l
  | Nat.succ fuel, c :: cs =>
    if pat ≠ [] ∧ listStartsWith pat (c :: cs) then
      rep ++ replaceGo pat rep fuel (List.drop (pat.length - 1) cs)
    else
      c :: replaceGo pat rep fuel cs

/-- Model of Rust `s.replace(pat, rep)`. -/
def strReplace (s pat rep : String) : String :=
  ⟨replaceGo pat.toList rep.toList s.toList.length s.toList⟩

/-- ASCII lowering of one character; models Rust `char` lowering on the
ASCII range, which is all the checksum code ever feeds it. -/
def charLower (c : Char) : Char :=
  if 65 ≤ c.toNat ∧ c.toNat ≤ 90 then Char.ofNat (c.toNat + 32) else c

/-- Model of Rust `str::to_lowercase` restricted to ASCII. -/
def strToLower (s : String) : String :=
  ⟨s.toList.map charLower⟩

/-- One lowercase hexadecimal digit. -/
def hexDigitChar (n : Nat) : Char :=
  if n < 10 then Char.ofNat (48 + n) else Char.ofNat (87 + n)

/-- Lowercase hex rendering of a byte sequence, two digits per byte; this
is the `{:x}` formatting applied to a digest in `checksum.rs`. -/
def toHexLower (bytes : List Nat) : String :=
  ⟨bytes.foldr (fun byte acc =>
    hexDigitChar (byte / 16 % 16) :: hexDigitChar (byte % 16) :: acc) []⟩

/-! ### ChecksumVerifier (src/download/checksum.rs)

The file system is abstracted: opening the file yields either an error or
the sequence of chunk reads the buffered reader would produce; each read
is either an I/O error or a chunk of bytes, with an empty chunk meaning
end of file.  The hash primitive (an external crate) is abstracted as a
`digest` oracle from the byte stream to the digest bytes. -/

inductive ChecksumType where
  | md5
  | sha1
  | sha256
  | sha512
deriving DecidableEq

/-- Outcome of opening a file: an open error, or the successive reads. -/
abbrev FileModel := Except String (List (Except String (List Nat)))

/-- Concatenates successive reads until end of file, propagating the first
read error, as the `loop { read; if 0 break; update }` in
`calculate_checksum` does. -/
def readChunks : List (Except String (List Nat)) → Except String (List Nat)
  | [] => Except.ok []
  | Except.error e :: _ => Except.error e
  | Except.ok [] :: _ => Except.ok []
  | Except.ok c :: rest =>
    match readChunks rest with
    | Except.ok bs => Except.ok (c ++ bs)
    | Except.error e => Except.error e

/-- `ChecksumVerifier::calculate_checksum`: open, stream the chunks into
the selected hasher, return the lowercase hex digest; any open or read
error propagates. -/
def calculate_checksum (digest : ChecksumType → List Nat → List Nat)
    (file : FileModel) (checksum_type : ChecksumType) : Except String String :=
  match file with
  | Except.error e => Except.error ("Failed to open file: " ++ e)
  | Except.ok reads =>
    match readChunks reads with
    | Except.error e => Except.error e
    | Except.ok bytes => Except.ok (toHexLower (digest checksum_type bytes))

/-- `ChecksumVerifier::verify_file`: compute the checksum and compare to
the expectation case-insensitively. -/
def verify_file (digest : ChecksumType → List Nat → List Nat)
    (file : FileModel) (expected_checksum : String)
    (checksum_type : ChecksumType) : Except String Bool :=
  match calculate_checksum digest file checksum_type with
  | Except.error e => Except.error e
  | Except.ok actual => Except.ok (strToLower actual == strToLower expected_checksum)

/-! ### VersionInfo and its ordering (src/registry/version_detection.rs) -/

inductive ReleaseType where
  | stable
  | lts
  | beta
  | alpha
  | rc
  | daily
  | weekly
  | snapshot
deriving DecidableEq

structure VersionInfo where
  version : String
  release_type : ReleaseType
  release_date : Option String := none
  end_of_life : Option String := none
  download_url_base : Option String := none
  changelog_url : Option String := none
  notes : Option String := none
deriving DecidableEq

/-- `VersionInfo::new`. -/
def VersionInfo.new (version : String) (release_type : ReleaseType) : VersionInfo :=
  ⟨version, release_type, none, none, none, none, none⟩

/-- Splits a character list on `.`, `-`, `_`, keeping empty tokens, as
Rust `str::split` with a character-class predicate does. -/
def splitOnSeps : List Char → List (List Char)
  | [] => [[]]
  | c :: cs =>
    if c = '.' ∨ c = '-' ∨ c = '_' then
      [] :: splitOnSeps cs
    else
      match splitOnSeps cs with
      | [] => [[c]]
      | t :: ts => (c :: t) :: ts

/-- `numeric_part.parse::<u32>()` on a digit run: fails when the run is
empty or its value exceeds `u32::MAX`. -/
def parseU32 (ds : List Char) : Option Nat :=
  if ds.isEmpty then none
  else
    let n := ds.foldl (fun acc c => acc * 10 + (c.toNat - 48)) 0
    if n < 4294967296 then some n else none

/-- `VersionInfo::parse_version`: split the version string on `.`, `-`,
`_`; keep each token's leading digit run when it parses as a `u32`. -/
def VersionInfo.parse_version (v : VersionInfo) : List Nat :=
  (splitOnSeps v.version.toList).filterMap
    (fun part => parseU32 (part.takeWhile Char.isDigit))

/-- The release-type rank table from `impl Ord for VersionInfo`. -/
def type_priority : ReleaseType → Nat
  | ReleaseType.stable => 100
  | ReleaseType.lts => 110
  | ReleaseType.rc => 80
  | ReleaseType.beta => 60
  | ReleaseType.alpha => 40
  | ReleaseType.daily => 20
  | ReleaseType.weekly => 25
  | ReleaseType.snapshot => 10

/-- Three-way comparison on `Nat`, the meaning of `u8::cmp`/`u32::cmp`. -/
def natCmp (a b : Nat) : Ordering :=
  if a < b then Ordering.lt else if a = b then Ordering.eq else Ordering.gt

/-- The numeric-component comparison in `Ord::cmp`: walk the zipped
component lists and return the first strict comparison, otherwise compare
lengths (the longer list is newer). -/
def cmpParts (xs ys : List Nat) : Ordering :=
  match (xs.zip ys).findSome?
      (fun p => match natCmp p.1 p.2 with
        | Ordering.eq => none
        | o => some o) with
  | some o => o
  | none => natCmp xs.length ys.length

/-- Recursive lexicographic comparison on component lists; proved equal to
`cmpParts` below and used for the order-theoretic lemmas. -/
def lexCmp : List Nat → List Nat → Ordering
  | [], [] => Ordering.eq
  | [], _ :: _ => Ordering.lt
  | _ :: _, [] => Ordering.gt
  | a :: as, b :: bs =>
    match natCmp a b with
    | Ordering.eq => lexCmp as bs
    | o => o

/-- `impl Ord for VersionInfo`: release-type rank first, then the numeric
components of the version string. -/
def VersionInfo.cmp (a b : VersionInfo) : Ordering :=
  match natCmp (type_priority a.release_type) (type_priority b.release_type) with
  | Ordering.eq => cmpParts a.parse_version b.parse_version
  | o => o

/-- Worker for `dedupConsecutive`: `prev` is the most recently kept
element; a later element equal to it (under `eq`, called with the later
element first, as in Rust) is dropped. -/
def dedupGo {α : Type} (eq : α → α → Bool) (prev : α) : List α → List α
  | [] => []
  | b :: rest => if eq b prev then dedupGo eq prev rest else b :: dedupGo eq b rest

/-- Rust `Vec::dedup_by`: removes all but the first of each run of
consecutive elements related by `eq`. -/
def dedupConsecutive {α : Type} (eq : α → α → Bool) : List α → List α
  | [] => []
  | a :: rest => a :: dedupGo eq a rest

/-- `CompositeVersionDetector::detect_versions`: each child detector's
outcome is given as an `Except`; failures are skipped, results are
concatenated, sorted newest first with the stable sort of `sort_by`
(modelled by the stable `List.mergeSort`), then deduplicated with
`dedup_by` on the version string. -/
def detect_versions (results : List (Except String (List VersionInfo))) :
    List VersionInfo :=
  let all_versions := results.foldl
    (fun acc r =>
      match r with
      | Except.ok versions => acc ++ versions
      | Except.error _ => acc) []
  let sorted := all_versions.mergeSort
    (fun a b => decide (VersionInfo.cmp b a ≠ Ordering.gt))
  dedupConsecutive (fun a b => a.version == b.version) sorted

/-! ### DownloadSource and selection (src/registry/sources.rs,
src/download/manager.rs) -/

inductive SourceType where
  | direct
  | mirror
  | torrent
  | magnet
deriving DecidableEq

inductive SourcePriority where
  | low
  | medium
  | high
  | preferred
deriving DecidableEq

/-- The discriminant values `Low = 1 .. Preferred = 4`. -/
def SourcePriority.toNat : SourcePriority → Nat
  | SourcePriority.low => 1
  | SourcePriority.medium => 2
  | SourcePriority.high => 3
  | SourcePriority.preferred => 4

structure DownloadSource where
  source_type : SourceType
  priority : SourcePriority
  url : Option String
  magnet_link : Option String
  trackers : List String
  region : Option String
  description : Option String
  verified : Bool
  speed_rating : Option Nat
deriving DecidableEq

/-- `DownloadSource::is_usable`. -/
def DownloadSource.is_usable (s : DownloadSource) : Bool :=
  match s.source_type with
  | SourceType.direct | SourceType.mirror | SourceType.torrent => s.url.isSome
  | SourceType.magnet => s.magnet_link.isSome

/-- `DownloadSource::get_url`. -/
def DownloadSource.get_url (s : DownloadSource) : Option String :=
  s.url.or s.magnet_link

/-- `DownloadSource::get_selection_score`. -/
def DownloadSource.get_selection_score (s : DownloadSource) : Nat :=
  s.priority.toNat * 1000 +
    (match s.speed_rating with
     | some speed => speed * 100
     | none => 0) +
    (if s.verified then 500 else 0) +
    (match s.source_type with
     | SourceType.direct => 200
     | SourceType.torrent => 150
     | SourceType.magnet => 100
     | SourceType.mirror => 50)

structure DownloadOptions where
  max_concurrent : Nat
  prefer_torrents : Bool
  output_directory : String
  verify_checksums : Bool
  resume_downloads : Bool
deriving DecidableEq

/-- The `+ 1000` transport bonus of the torrent-preferring sort branch. -/
def torrentBonus (s : DownloadSource) : Nat :=
  match s.source_type with
  | SourceType.torrent | SourceType.magnet => 1000
  | _ => 0

/-- The `+ 1000` transport bonus of the HTTP-preferring sort branch. -/
def httpBonus (s : DownloadSource) : Nat :=
  match s.source_type with
  | SourceType.direct | SourceType.mirror => 1000
  | _ => 0

/-- The predicate of the final `find` in `select_best_source`. -/
def isUsableHttp (s : DownloadSource) : Bool :=
  s.is_usable &&
    (match s.source_type with
     | SourceType.direct | SourceType.mirror => true
     | _ => false)

/-- `DownloadManager::select_best_source`: fail on an empty list, sort by
descending bonus-adjusted score (Rust `sort_by` is stable, modelled by the
stable `List.mergeSort`), then return the first usable Direct/Mirror
source, failing if there is none. -/
def select_best_source (sources : List DownloadSource)
    (options : DownloadOptions) : Except String DownloadSource :=
  if sources.isEmpty then
    Except.error "No download sources available"
  else
    let sorted_sources :=
      if options.prefer_torrents then
        sources.mergeSort (fun a b =>
          decide (torrentBonus b + b.get_selection_score ≤
            torrentBonus a + a.get_selection_score))
      else
        sources.mergeSort (fun a b =>
          decide (httpBonus b + b.get_selection_score ≤
            httpBonus a + a.get_selection_score))
    match sorted_sources.find? isUsableHttp with
    | some s => Except.ok s
    | none => Except.error "No usable HTTP sources found"

/-! ### DownloadEngine (src/download/engine.rs)

The HTTP transfer of one attempt is abstracted as an oracle from the
attempt number to its outcome (bytes written on success; error message
and bytes written before the error on failure), and checksum verification
as an oracle with the arguments `verify_file` receives.  Wall-clock
durations are not modelled; the retry delay is kept as a number of
seconds because the `Retry` event carries it. -/

structure DownloadRequest where
  url : String
  output_path : String
  expected_checksum : Option String
  checksum_type : Option ChecksumType
  user_agent : Option String
  resume : Bool
deriving DecidableEq

structure DownloadResult where
  success : Bool
  bytes_downloaded : Nat
  error : Option String
  checksum_verified : Bool
deriving DecidableEq

inductive DownloadProgress where
  | started (id url output_path : String)
  | progress (id : String) (bytes_downloaded total_bytes progress_percent speed_bps : Nat)
  | verifyingChecksum (id : String)
  | checksumVerified (id : String)
  | checksumFailed (id : String) (expected : String)
  | completed (id : String) (bytes_downloaded : Nat) (checksum_verified : Bool)
  | failed (id : String) (error : String) (attempts : Nat)
  | retry (id : String) (attempt max_attempts delay_secs : Nat)
  | cancelled (id : String)
  | error (id : String) (error_msg : String)
deriving DecidableEq

/-- Outcome of one `download_attempt` call. -/
inductive AttemptOutcome where
  | ok (bytes : Nat)
  | err (error : String) (bytes_written : Nat)
deriving DecidableEq

structure DownloadEngine where
  max_retries : Nat
  retry_delay : Nat
deriving DecidableEq

/-- `DownloadEngine::new`: `max_retries = 3`, `retry_delay = 2s`. -/
def DownloadEngine.new : DownloadEngine := ⟨3, 2⟩

/-- The success arm of the `download` loop (engine.rs lines 64-126):
verify the checksum when the request carries both an expectation and an
algorithm, emit the corresponding events, and build the successful
result. -/
def finishSuccess (id : String) (req : DownloadRequest)
    (verifyOutcome : String → String → ChecksumType → Except String Bool)
    (result : Nat) : List DownloadProgress × DownloadResult :=
  match req.expected_checksum, req.checksum_type with
  | some expected, some checksum_type =>
    (match verifyOutcome req.output_path expected checksum_type with
     | Except.ok true =>
       ([DownloadProgress.verifyingChecksum id,
         DownloadProgress.checksumVerified id,
         DownloadProgress.completed id result true],
        ⟨true, result, none, true⟩)
     | Except.ok false =>
       ([DownloadProgress.verifyingChecksum id,
         DownloadProgress.checksumFailed id expected,
         DownloadProgress.completed id result false],
        ⟨true, result, none, false⟩)
     | Except.error e =>
       ([DownloadProgress.verifyingChecksum id,
         DownloadProgress.error id ("Checksum verification failed: " ++ e),
         DownloadProgress.completed id result false],
        ⟨true, result, none, false⟩))
  | _, _ =>
    ([DownloadProgress.completed id result true], ⟨true, result, none, true⟩)

/-- The retry loop of `DownloadEngine::download`.  `attempt` is the value
of the Rust counter before the `attempt += 1` at the top of the loop;
`fuel` bounds the number of iterations.  `download` passes
`max_retries + 1`, which is never exhausted because the loop runs at most
`max_retries` iterations, so the fuel-0 branch is unreachable. -/
def downloadLoop (eng : DownloadEngine) (id : String) (req : DownloadRequest)
    (attemptOutcome : Nat → AttemptOutcome)
    (verifyOutcome : String → String → ChecksumType → Except String Bool) :
    Nat → Nat → List DownloadProgress × DownloadResult
  | 0, _ => ([], ⟨false, 0, none, false⟩)
  | Nat.succ fuel, attempt =>
    match attemptOutcome (attempt + 1) with
    | AttemptOutcome.ok result => finishSuccess id req verifyOutcome result
    | AttemptOutcome.err e _ =>
      if eng.max_retries ≤ attempt + 1 then
        ([DownloadProgress.failed id e (attempt + 1)],
         ⟨false, 0, some e, false⟩)
      else
        let rest := downloadLoop eng id req attemptOutcome verifyOutcome fuel (attempt + 1)
        (DownloadProgress.retry id (attempt + 1) eng.max_retries eng.retry_delay :: rest.1,
         rest.2)

/-- `DownloadEngine::download`: emit `Started`, then run the retry loop
starting from attempt counter 0. -/
def download (eng : DownloadEngine) (id : String) (req : DownloadRequest)
    (attemptOutcome : Nat → AttemptOutcome)
    (verifyOutcome : String → String → ChecksumType → Except String Bool) :
    List DownloadProgress × DownloadResult :=
  let rest := downloadLoop eng id req attemptOutcome verifyOutcome
    (eng.max_retries + 1) 0
  (DownloadProgress.started id req.url req.output_path :: rest.1, rest.2)

/-! ### One attempt's HTTP status gate and byte streaming
(src/download/engine.rs, `download_attempt`) -/

/-- The response of one attempt: the HTTP status and the successive body
chunk reads (byte counts; a read may fail). -/
structure AttemptEnv where
  status : Nat
  chunks : List (Except String Nat)

/-- The `while let Some(chunk) = stream.next()` loop: accumulate chunk
sizes, failing on the first read error. -/
def streamChunks : Nat → List (Except String Nat) → Except String Nat
  | acc, [] => Except.ok acc
  | acc, Except.ok n :: rest => streamChunks (acc + n) rest
  | _, Except.error e :: _ =>
    Except.error ("Failed to read chunk from response: " ++ e)

/-- `download_attempt` after the request is sent: bail unless the status
is a success status (`200..=299`) or `206`, then stream the body,
starting the byte count at the existing file size. -/
def download_attempt (existing_size : Nat) (env : AttemptEnv) :
    Except String Nat :=
  if ¬ (200 ≤ env.status ∧ env.status ≤ 299) ∧ env.status ≠ 206 then
    Except.error ("HTTP request failed with status: " ++ toString env.status)
  else
    streamChunks existing_size env.chunks

/-! ### IsoRegistry::generate_filename (src/registry/mod.rs) -/

/-- `IsoRegistry::generate_filename`: substitute the placeholders into the
distribution's filename pattern; when no variant is given, strip the
variant placeholder together with one adjacent `-` or `_` separator
(leading separator first), else remove the bare placeholder. -/
def generate_filename (name pattern version architecture : String)
    (variant : Option String) : String :=
  let f1 := strReplace pattern "{distro}" name
  let f2 := strReplace f1 "{version}" version
  let f3 := strReplace f2 "{arch}" architecture
  match variant with
  | some v => strReplace f3 "{variant}" v
  | none =>
    let g1 := strReplace f3 "-{variant}" ""
    let g2 := strReplace g1 "_{variant}" ""
    let g3 := strReplace g2 "{variant}-" ""
    let g4 := strReplace g3 "{variant}_" ""
    strReplace g4 "{variant}" ""

/-! ### Concrete values used to exercise the theorems -/

/-- A usable direct source, as `DownloadSource::direct` would build it. -/
def exampleDirectSource : DownloadSource :=
  ⟨SourceType.direct, SourcePriority.high, some "http://example.org/iso", none,
    [], none, none, false, none⟩

/-- A usable magnet source, as `DownloadSource::magnet` would build it. -/
def exampleMagnetSource : DownloadSource :=
  ⟨SourceType.magnet, SourcePriority.high, none, some "magnet:?xt=urn:btih:abc",
    [], none, none, false, none⟩

/-- Download options preferring torrents. -/
def exampleTorrentOptions : DownloadOptions := ⟨3, true, "/tmp", true, true⟩

/-- Download options preferring HTTP. -/
def exampleHttpOptions : DownloadOptions := ⟨3, false, "/tmp", true, true⟩

/-- A request carrying an expected checksum and a checksum type. -/
def exampleChecksumRequest : DownloadRequest :=
  ⟨"http://example.org/iso", "/tmp/out.iso", some "aabb", some ChecksumType.sha256,
    some "isod/0.1.0", true⟩

/-- A request carrying no expected checksum. -/
def examplePlainRequest : DownloadRequest :=
  ⟨"http://example.org/iso", "/tmp/out.iso", none, none, some "isod/0.1.0", true⟩

/-! ## Helper lemmas: the three-way comparisons -/

theorem natCmp_lt_iff (a b : Nat) : natCmp a b = Ordering.lt ↔ a < b := by
  unfold natCmp
  by_cases h1 : a < b
  · simp [h1]
  · by_cases h2 : a = b <;> simp [h1, h2]

theorem natCmp_eq_iff (a b : Nat) : natCmp a b = Ordering.eq ↔ a = b := by
  unfold natCmp
  by_cases h1 : a < b
  · simp [h1]; omega
  · by_cases h2 : a = b <;> simp [h1, h2]

theorem natCmp_gt_iff (a b : Nat) : natCmp a b = Ordering.gt ↔ b < a := by
  unfold natCmp
  by_cases h1 : a < b
  · simp [h1]; omega
  · by_cases h2 : a = b
    · simp [h1, h2]
    · simp [h1, h2]; omega

theorem natCmp_self (a : Nat) : natCmp a a = Ordering.eq := by
  simp [natCmp]

theorem natCmp_swap (a b : Nat) : natCmp b a = (natCmp a b).swap := by
  unfold natCmp
  by_cases h1 : a < b
  · simp [h1, Nat.lt_asymm h1, Ordering.swap]; omega
  · by_cases h2 : a = b
    · simp [h1, h2, Ordering.swap]
    · have h3 : b < a := by omega
      simp [h1, h2, h3, Ordering.swap]

theorem natCmp_succ (a b : Nat) : natCmp (a + 1) (b + 1) = natCmp a b := by
  unfold natCmp
  simp [Nat.succ_lt_succ_iff]

theorem lexCmp_eq_iff : ∀ xs ys : List Nat, lexCmp xs ys = Ordering.eq ↔ xs = ys := by
  intro xs
  induction xs with
  | nil => intro ys; cases ys <;> simp [lexCmp]
  | cons a as ih =>
    intro ys
    cases ys with
    | nil => simp [lexCmp]
    | cons b bs =>
      simp only [lexCmp]
      cases hab : natCmp a b with
      | eq =>
        have hab2 : a = b := (natCmp_eq_iff a b).mp hab
        simp [hab2, ih bs]
      | lt =>
        have hab2 : a < b := (natCmp_lt_iff a b).mp hab
        simp; intro h; omega
      | gt =>
        have hab2 : b < a := (natCmp_gt_iff a b).mp hab
        simp; intro h; omega

theorem lexCmp_swap : ∀ xs ys : List Nat, lexCmp ys xs = (lexCmp xs ys).swap := by
  intro xs
  induction xs with
  | nil => intro ys; cases ys <;> simp [lexCmp, Ordering.swap]
  | cons a as ih =>
    intro ys
    cases ys with
    | nil => simp [lexCmp, Ordering.swap]
    | cons b bs =>
      simp only [lexCmp, natCmp_swap a b]
      cases hab : natCmp a b with
      | eq => simpa [Ordering.swap] using ih bs
      | lt => simp [Ordering.swap]
      | gt => simp [Ordering.swap]

theorem lexCmp_lt_trans : ∀ xs ys zs : List Nat,
    lexCmp xs ys = Ordering.lt → lexCmp ys zs = Ordering.lt → lexCmp xs zs = Ordering.lt := by
  intro xs
  induction xs with
  | nil =>
    intro ys zs h1 h2
    cases ys with
    | nil => exact h2
    | cons b bs =>
      cases zs with
      | nil => simp [lexCmp] at h2
      | cons c cs => simp [lexCmp]
  | cons a as ih =>
    intro ys zs h1 h2
    cases ys with
    | nil => simp [lexCmp] at h1
    | cons b bs =>
      cases zs with
      | nil => simp [lexCmp] at h2
      | cons c cs =>
        simp only [lexCmp] at h1 h2 ⊢
        cases hab : natCmp a b with
        | gt => rw [hab] at h1; exact absurd h1 (by simp)
        | lt =>
          have hab2 : a < b := (natCmp_lt_iff a b).mp hab
          cases hbc : natCmp b c with
          | gt => rw [hbc] at h2; exact absurd h2 (by simp)
          | lt =>
            have hbc2 : b < c := (natCmp_lt_iff b c).mp hbc
            have : natCmp a c = Ordering.lt := (natCmp_lt_iff a c).mpr (by omega)
            simp [this]
          | eq =>
            have hbc2 : b = c := (natCmp_eq_iff b c).mp hbc
            have : natCmp a c = Ordering.lt := (natCmp_lt_iff a c).mpr (by omega)
            simp [this]
        | eq =>
          have hab2 : a = b := (natCmp_eq_iff a b).mp hab
          rw [hab] at h1
          cases hbc : natCmp b c with
          | gt => rw [hbc] at h2; exact absurd h2 (by simp)
          | lt =>
            have hbc2 : b < c := (natCmp_lt_iff b c).mp hbc
            have : natCmp a c = Ordering.lt := (natCmp_lt_iff a c).mpr (by omega)
            simp [this]
          | eq =>
            have hbc2 : b = c := (natCmp_eq_iff b c).mp hbc
            rw [hbc] at h2
            have : natCmp a c = Ordering.eq := (natCmp_eq_iff a c).mpr (by omega)
            simp [this]
            exact ih bs cs h1 h2

theorem lexCmp_le_trans {xs ys zs : List Nat}
    (h1 : lexCmp xs ys ≠ Ordering.gt) (h2 : lexCmp ys zs ≠ Ordering.gt) :
    lexCmp xs zs ≠ Ordering.gt := by
  cases hxy : lexCmp xs ys with
  | gt => exact absurd hxy h1
  | eq =>
    have : xs = ys := (lexCmp_eq_iff xs ys).mp hxy
    rw [this]; exact h2
  | lt =>
    cases hyz : lexCmp ys zs with
    | gt => exact absurd hyz h2
    | eq =>
      have : ys = zs := (lexCmp_eq_iff ys zs).mp hyz
      rw [← this]; simp [hxy]
    | lt =>
      have := lexCmp_lt_trans xs ys zs hxy hyz
      simp [this]

theorem lexCmp_append_lt : ∀ (xs : List Nat) (z : Nat) (zs : List Nat),
    lexCmp xs (xs ++ z :: zs) = Ordering.lt := by
  intro xs z zs
  induction xs with
  | nil => simp [lexCmp]
  | cons a as ih => simp [lexCmp, natCmp_self, ih]

theorem cmpParts_eq_lexCmp : ∀ xs ys : List Nat, cmpParts xs ys = lexCmp xs ys := by
  intro xs
  induction xs with
  | nil =>
    intro ys
    cases ys with
    | nil => simp [cmpParts, lexCmp, natCmp_self]
    | cons b bs =>
      simp [cmpParts, lexCmp]
      exact (natCmp_lt_iff 0 (bs.length + 1)).mpr (by omega)
  | cons a as ih =>
    intro ys
    cases ys with
    | nil =>
      simp [cmpParts, lexCmp]
      exact (natCmp_gt_iff (as.length + 1) 0).mpr (by omega)
    | cons b bs =>
      simp only [cmpParts, List.zip_cons_cons, List.findSome?_cons, List.length_cons]
      cases hab : natCmp a b with
      | lt => simp [lexCmp, hab]
      | gt => simp [lexCmp, hab]
      | eq =>
        simp only [lexCmp, hab, natCmp_succ]
        rw [← ih bs]
        simp [cmpParts]

theorem cmp_swap (a b : VersionInfo) : VersionInfo.cmp b a = (VersionInfo.cmp a b).swap := by
  unfold VersionInfo.cmp
  cases hr : natCmp (type_priority a.release_type) (type_priority b.release_type) with
  | eq =>
    have h2 : natCmp (type_priority b.release_type) (type_priority a.release_type) =
        Ordering.eq :=
      (natCmp_eq_iff _ _).mpr ((natCmp_eq_iff _ _).mp hr).symm
    rw [h2]
    rw [cmpParts_eq_lexCmp, cmpParts_eq_lexCmp, lexCmp_swap]
  | lt =>
    have h2 : natCmp (type_priority b.release_type) (type_priority a.release_type) =
        Ordering.gt :=
      (natCmp_gt_iff _ _).mpr ((natCmp_lt_iff _ _).mp hr)
    rw [h2]
    rfl
  | gt =>
    have h2 : natCmp (type_priority b.release_type) (type_priority a.release_type) =
        Ordering.lt :=
      (natCmp_lt_iff _ _).mpr ((natCmp_gt_iff _ _).mp hr)
    rw [h2]
    rfl

theorem cmp_le_trans {a b c : VersionInfo}
    (h1 : VersionInfo.cmp a b ≠ Ordering.gt) (h2 : VersionInfo.cmp b c ≠ Ordering.gt) :
    VersionInfo.cmp a c ≠ Ordering.gt := by
  unfold VersionInfo.cmp at h1 h2 ⊢
  rw [cmpParts_eq_lexCmp] at h1 h2 ⊢
  set ra := type_priority a.release_type with hra
  set rb := type_priority b.release_type with hrb
  set rc := type_priority c.release_type with hrc
  cases hab : natCmp ra rb with
  | gt => rw [hab] at h1; simp at h1
  | lt =>
    have hab2 : ra < rb := (natCmp_lt_iff ra rb).mp hab
    cases hbc : natCmp rb rc with
    | gt => rw [hbc] at h2; simp at h2
    | lt =>
      have hbc2 : rb < rc := (natCmp_lt_iff rb rc).mp hbc
      have : natCmp ra rc = Ordering.lt := (natCmp_lt_iff ra rc).mpr (by omega)
      simp [this]
    | eq =>
      have hbc2 : rb = rc := (natCmp_eq_iff rb rc).mp hbc
      have : natCmp ra rc = Ordering.lt := (natCmp_lt_iff ra rc).mpr (by omega)
      simp [this]
  | eq =>
    have hab2 : ra = rb := (natCmp_eq_iff ra rb).mp hab
    rw [hab] at h1
    cases hbc : natCmp rb rc with
    | gt => rw [hbc] at h2; simp at h2
    | lt =>
      have hbc2 : rb < rc := (natCmp_lt_iff rb rc).mp hbc
      have : natCmp ra rc = Ordering.lt := (natCmp_lt_iff ra rc).mpr (by omega)
      simp [this]
    | eq =>
      have hbc2 : rb = rc := (natCmp_eq_iff rb rc).mp hbc
      rw [hbc] at h2
      have : natCmp ra rc = Ordering.eq := (natCmp_eq_iff ra rc).mpr (by omega)
      rw [this]
      exact lexCmp_le_trans h1 h2

theorem cmp_total (a b : VersionInfo) :
    VersionInfo.cmp a b ≠ Ordering.gt ∨ VersionInfo.cmp b a ≠ Ordering.gt := by
  rw [cmp_swap a b]
  cases VersionInfo.cmp a b <;> simp [Ordering.swap]

/-! ## Helper lemmas: searching a descending-sorted list -/

theorem find_sorted_max {α : Type} (p : α → Bool) (f : α → Nat) :
    ∀ l : List α, l.Pairwise (fun a b => f b ≤ f a) →
      ∀ s, l.find? p = some s →
        p s = true ∧ s ∈ l ∧ ∀ t ∈ l, p t = true → f t ≤ f s := by
  intro l
  induction l with
  | nil => intro _ s hs; simp [List.find?] at hs
  | cons a as ih =>
    intro hpw s hs
    rw [List.pairwise_cons] at hpw
    obtain ⟨hhead, htail⟩ := hpw
    by_cases hpa : p a = true
    · rw [List.find?_cons_of_pos _ hpa] at hs
      cases hs
      refine ⟨hpa, List.mem_cons_self a as, ?_⟩
      intro t ht htp
      rcases List.mem_cons.mp ht with h | h
      · rw [h]
      · exact hhead t h
    · rw [List.find?_cons_of_neg _ (by simpa using hpa)] at hs
      obtain ⟨hps, hmem, hall⟩ := ih htail s hs
      refine ⟨hps, List.mem_cons_of_mem a hmem, ?_⟩
      intro t ht htp
      rcases List.mem_cons.mp ht with h | h
      · rw [h] at htp; exact absurd htp hpa
      · exact hall t h htp

theorem isUsableHttp_eq (s : DownloadSource) :
    isUsableHttp s = true ↔
      s.is_usable = true ∧
        (s.source_type = SourceType.direct ∨ s.source_type = SourceType.mirror) := by
  cases htype : s.source_type <;> simp [isUsableHttp, htype]

theorem torrentBonus_const {s t : DownloadSource}
    (hs : isUsableHttp s = true) (ht : isUsableHttp t = true) :
    torrentBonus s = torrentBonus t := by
  obtain ⟨-, hs2⟩ := (isUsableHttp_eq s).mp hs
  obtain ⟨-, ht2⟩ := (isUsableHttp_eq t).mp ht
  rcases hs2 with h1 | h1 <;> rcases ht2 with h2 | h2 <;>
    simp [torrentBonus, h1, h2]

theorem httpBonus_const {s t : DownloadSource}
    (hs : isUsableHttp s = true) (ht : isUsableHttp t = true) :
    httpBonus s = httpBonus t := by
  obtain ⟨-, hs2⟩ := (isUsableHttp_eq s).mp hs
  obtain ⟨-, ht2⟩ := (isUsableHttp_eq t).mp ht
  rcases hs2 with h1 | h1 <;> rcases ht2 with h2 | h2 <;>
    simp [httpBonus, h1, h2]

/-- Core of the `select_best_source` analysis, for either sort branch:
the first usable HTTP source of the list sorted by descending
bonus-adjusted score is a usable HTTP source of maximal raw score among
the usable HTTP sources, as long as the bonus is constant on usable HTTP
sources; and the search succeeds whenever one exists. -/
theorem select_core (sources : List DownloadSource) (bonus : DownloadSource → Nat)
    (hb : ∀ s t, isUsableHttp s = true → isUsableHttp t = true → bonus s = bonus t) :
    (∀ s,
      (sources.mergeSort (fun a b =>
        decide (bonus b + b.get_selection_score ≤
          bonus a + a.get_selection_score))).find? isUsableHttp = some s →
      s ∈ sources ∧ isUsableHttp s = true ∧
        ∀ t ∈ sources, isUsableHttp t = true →
          t.get_selection_score ≤ s.get_selection_score)
    ∧ ((∃ t ∈ sources, isUsableHttp t = true) →
        ∃ s,
          (sources.mergeSort (fun a b =>
            decide (bonus b + b.get_selection_score ≤
              bonus a + a.get_selection_score))).find? isUsableHttp = some s) := by
  have htrans : ∀ a b c : DownloadSource,
      (fun a b => decide (bonus b + b.get_selection_score ≤
        bonus a + a.get_selection_score)) a b = true →
      (fun a b => decide (bonus b + b.get_selection_score ≤
        bonus a + a.get_selection_score)) b c = true →
      (fun a b => decide (bonus b + b.get_selection_score ≤
        bonus a + a.get_selection_score)) a c = true := by
    intro a b c h1 h2
    simp only [decide_eq_true_eq] at h1 h2 ⊢
    omega
  have htotal : ∀ a b : DownloadSource,
      ((fun a b => decide (bonus b + b.get_selection_score ≤
        bonus a + a.get_selection_score)) a b ||
       (fun a b => decide (bonus b + b.get_selection_score ≤
        bonus a + a.get_selection_score)) b a) = true := by
    intro a b
    simp only [Bool.or_eq_true, decide_eq_true_eq]
    omega
  have hpair := List.sorted_mergeSort htrans htotal sources
  have hpair2 : (sources.mergeSort (fun a b =>
      decide (bonus b + b.get_selection_score ≤
        bonus a + a.get_selection_score))).Pairwise
      (fun a b => bonus b + b.get_selection_score ≤
        bonus a + a.get_selection_score) :=
    hpair.imp (fun h => by simpa using h)
  constructor
  · intro s hfind
    obtain ⟨hps, hmem, hall⟩ :=
      find_sorted_max isUsableHttp
        (fun x => bonus x + x.get_selection_score) _ hpair2 s hfind
    refine ⟨List.mem_mergeSort.mp hmem, hps, ?_⟩
    intro t htmem htp
    have h2 := hall t (List.mem_mergeSort.mpr htmem) htp
    have hbeq := hb t s htp hps
    simp only at h2
    omega
  · rintro ⟨t, htmem, htp⟩
    cases hfind : (sources.mergeSort (fun a b =>
        decide (bonus b + b.get_selection_score ≤
          bonus a + a.get_selection_score))).find? isUsableHttp with
    | some s => exact ⟨s, rfl⟩
    | none =>
      have := List.find?_eq_none.mp hfind t (List.mem_mergeSort.mpr htmem)
      simp [htp] at this

/-! ## Claim C5: the VersionInfo ordering -/

/-- Claim C5: the `VersionInfo` comparison compares the release-type rank
first, with the fixed table LTS=110, Stable=100, RC=80, Beta=60, Alpha=40,
Weekly=25, Daily=20, Snapshot=10; on equal rank it compares the numeric
components extracted from the version string component-wise, and when one
component list is a proper prefix of the other the version with more
components is greater; the comparison is total (swap-compatible and
transitive); and in particular `VersionInfo("22.04", LTS)` is greater
than `VersionInfo("24.10", Stable)`. -/
theorem c5_version_ordering :
    (type_priority ReleaseType.lts = 110 ∧ type_priority ReleaseType.stable = 100 ∧
     type_priority ReleaseType.rc = 80 ∧ type_priority ReleaseType.beta = 60 ∧
     type_priority ReleaseType.alpha = 40 ∧ type_priority ReleaseType.weekly = 25 ∧
     type_priority ReleaseType.daily = 20 ∧ type_priority ReleaseType.snapshot = 10)
    ∧ (∀ a b : VersionInfo,
        natCmp (type_priority a.release_type) (type_priority b.release_type) ≠ Ordering.eq →
        VersionInfo.cmp a b =
          natCmp (type_priority a.release_type) (type_priority b.release_type))
    ∧ (∀ a b : VersionInfo,
        type_priority a.release_type = type_priority b.release_type →
        VersionInfo.cmp a b = cmpParts a.parse_version b.parse_version)
    ∧ (∀ xs ys : List Nat, cmpParts xs ys = lexCmp xs ys)
    ∧ (∀ a b : VersionInfo,
        type_priority a.release_type = type_priority b.release_type →
        (∃ t, t ≠ [] ∧ b.parse_version = a.parse_version ++ t) →
        VersionInfo.cmp a b = Ordering.lt)
    ∧ (∀ a b : VersionInfo, VersionInfo.cmp b a = (VersionInfo.cmp a b).swap)
    ∧ (∀ a b c : VersionInfo,
        VersionInfo.cmp a b ≠ Ordering.gt → VersionInfo.cmp b c ≠ Ordering.gt →
        VersionInfo.cmp a c ≠ Ordering.gt)
    ∧ VersionInfo.cmp (VersionInfo.new "22.04" ReleaseType.lts)
        (VersionInfo.new "24.10" ReleaseType.stable) = Ordering.gt := by
  refine ⟨by decide, ?_, ?_, cmpParts_eq_lexCmp, ?_, cmp_swap, ?_, by decide⟩
  · intro a b h
    unfold VersionInfo.cmp
    cases hr : natCmp (type_priority a.release_type) (type_priority b.release_type) with
    | eq => exact absurd hr h
    | lt => rfl
    | gt => rfl
  · intro a b h
    unfold VersionInfo.cmp
    rw [(natCmp_eq_iff _ _).mpr h]
  · intro a b h ht
    obtain ⟨t, htne, hbp⟩ := ht
    cases t with
    | nil => exact absurd rfl htne
    | cons z zs =>
      unfold VersionInfo.cmp
      rw [(natCmp_eq_iff _ _).mpr h]
      rw [cmpParts_eq_lexCmp, hbp]
      exact lexCmp_append_lt _ _ _
  · intro a b c h1 h2
    exact cmp_le_trans h1 h2

/-- Witness for C5: the proper-prefix rule at a concrete pair, obtained
from the theorem. -/
theorem c5_witness :
    VersionInfo.cmp (VersionInfo.new "1.2" ReleaseType.stable)
      (VersionInfo.new "1.2.3" ReleaseType.stable) = Ordering.lt :=
  c5_version_ordering.2.2.2.2.1 _ _ (by decide) ⟨[3], by decide, by decide⟩

/-! ## Claim C3: CompositeVersionDetector::detect_versions -/

/-- Claim C3 (failing input): the composite detector's output can retain
two entries with the same version string.  With a single child returning
`[("1", Stable), ("0.5", Stable), ("1", Snapshot)]`, the newest-first sort
orders them exactly like that (rank 100 before rank 100 before rank 10),
so the two `"1"` entries are not adjacent and `dedup_by` keeps both. -/
theorem c3_duplicate_version_strings :
    detect_versions
      [Except.ok [VersionInfo.new "1" ReleaseType.stable,
        VersionInfo.new "0.5" ReleaseType.stable,
        VersionInfo.new "1" ReleaseType.snapshot]] =
      [VersionInfo.new "1" ReleaseType.stable,
        VersionInfo.new "0.5" ReleaseType.stable,
        VersionInfo.new "1" ReleaseType.snapshot] ∧
    (detect_versions
      [Except.ok [VersionInfo.new "1" ReleaseType.stable,
        VersionInfo.new "0.5" ReleaseType.stable,
        VersionInfo.new "1" ReleaseType.snapshot]]).map (fun v => v.version) =
      ["1", "0.5", "1"] := by
  have hs : [VersionInfo.new "1" ReleaseType.stable,
      VersionInfo.new "0.5" ReleaseType.stable,
      VersionInfo.new "1" ReleaseType.snapshot].Pairwise
      (fun a b => decide (VersionInfo.cmp b a ≠ Ordering.gt) = true) := by
    decide
  constructor
  · simp only [detect_versions, List.foldl, List.nil_append]
    rw [List.mergeSort_of_sorted hs]
    decide
  · simp only [detect_versions, List.foldl, List.nil_append]
    rw [List.mergeSort_of_sorted hs]
    decide

/-! ## Claim C2: DownloadManager::select_best_source -/

/-- Claim C2 (counterexample): with `prefer_torrents = true` and a single
usable magnet source, the claimed policy would return that magnet source,
but `select_best_source` refuses it — the final filter always requires a
usable Direct/Mirror source, whatever the transport preference. -/
theorem c2_counterexample :
    exampleMagnetSource.is_usable = true ∧
    exampleTorrentOptions.prefer_torrents = true ∧
    select_best_source [exampleMagnetSource] exampleTorrentOptions =
      Except.error "No usable HTTP sources found" := by
  refine ⟨by decide, by decide, ?_⟩
  simp [select_best_source, List.mergeSort_singleton]
  decide

/-- Claim C2 (amended): for every source list and options,
`select_best_source` returns a source only if it is a usable source of
type Direct or Mirror with maximal `get_selection_score` among the usable
Direct/Mirror sources (regardless of `prefer_torrents`, which only
influences tie-breaking through the sort); it succeeds whenever a usable
Direct/Mirror source exists, and returns an error otherwise (including on
the empty list). -/
theorem c2_select_best_source_http_only
    (sources : List DownloadSource) (options : DownloadOptions) :
    (∀ s, select_best_source sources options = Except.ok s →
      s ∈ sources ∧ s.is_usable = true ∧
        (s.source_type = SourceType.direct ∨ s.source_type = SourceType.mirror) ∧
        ∀ t ∈ sources, t.is_usable = true →
          (t.source_type = SourceType.direct ∨ t.source_type = SourceType.mirror) →
          t.get_selection_score ≤ s.get_selection_score)
    ∧ ((∃ t ∈ sources, t.is_usable = true ∧
          (t.source_type = SourceType.direct ∨ t.source_type = SourceType.mirror)) →
        ∃ s, select_best_source sources options = Except.ok s)
    ∧ ((∀ t ∈ sources,
          ¬(t.is_usable = true ∧
            (t.source_type = SourceType.direct ∨ t.source_type = SourceType.mirror))) →
        ∃ e, select_best_source sources options = Except.error e) := by
  by_cases hempty : sources.isEmpty = true
  · have hnil : sources = [] := by
      cases sources with
      | nil => rfl
      | cons a as => simp [List.isEmpty] at hempty
    subst hnil
    refine ⟨?_, ?_, ?_⟩
    · intro s hok
      simp [select_best_source] at hok
    · rintro ⟨t, ht, -⟩
      simp at ht
    · intro _
      exact ⟨"No download sources available", by simp [select_best_source]⟩
  · cases hpt : options.prefer_torrents with
    | true =>
      have hsel : select_best_source sources options =
          match (sources.mergeSort (fun a b =>
            decide (torrentBonus b + b.get_selection_score ≤
              torrentBonus a + a.get_selection_score))).find? isUsableHttp with
          | some s => Except.ok s
          | none => Except.error "No usable HTTP sources found" := by
        simp [select_best_source, hempty, hpt]
      have hcore := select_core sources torrentBonus
        (fun s t hs ht => torrentBonus_const hs ht)
      refine ⟨?_, ?_, ?_⟩
      · intro s hok
        rw [hsel] at hok
        cases hfind : (sources.mergeSort (fun a b =>
            decide (torrentBonus b + b.get_selection_score ≤
              torrentBonus a + a.get_selection_score))).find? isUsableHttp with
        | none => rw [hfind] at hok; simp at hok
        | some r =>
          rw [hfind] at hok
          simp only [Except.ok.injEq] at hok
          subst hok
          obtain ⟨hmem, hps, hmax⟩ := hcore.1 r hfind
          obtain ⟨husable, htype⟩ := (isUsableHttp_eq r).mp hps
          refine ⟨hmem, husable, htype, ?_⟩
          intro t ht h1 h2
          exact hmax t ht ((isUsableHttp_eq t).mpr ⟨h1, h2⟩)
      · rintro ⟨t, ht, h1, h2⟩
        obtain ⟨s, hfind⟩ := hcore.2 ⟨t, ht, (isUsableHttp_eq t).mpr ⟨h1, h2⟩⟩
        refine ⟨s, ?_⟩
        rw [hsel, hfind]
      · intro hnone
        rw [hsel]
        cases hfind : (sources.mergeSort (fun a b =>
            decide (torrentBonus b + b.get_selection_score ≤
              torrentBonus a + a.get_selection_score))).find? isUsableHttp with
        | none => exact ⟨"No usable HTTP sources found", rfl⟩
        | some r =>
          obtain ⟨hmem, hps, -⟩ := hcore.1 r hfind
          obtain ⟨husable, htype⟩ := (isUsableHttp_eq r).mp hps
          exact absurd ⟨husable, htype⟩ (hnone r hmem)
    | false =>
      have hsel : select_best_source sources options =
          match (sources.mergeSort (fun a b =>
            decide (httpBonus b + b.get_selection_score ≤
              httpBonus a + a.get_selection_score))).find? isUsableHttp with
          | some s => Except.ok s
          | none => Except.error "No usable HTTP sources found" := by
        simp [select_best_source, hempty, hpt]
      have hcore := select_core sources httpBonus
        (fun s t hs ht => httpBonus_const hs ht)
      refine ⟨?_, ?_, ?_⟩
      · intro s hok
        rw [hsel] at hok
        cases hfind : (sources.mergeSort (fun a b =>
            decide (httpBonus b + b.get_selection_score ≤
              httpBonus a + a.get_selection_score))).find? isUsableHttp with
        | none => rw [hfind] at hok; simp at hok
        | some r =>
          rw [hfind] at hok
          simp only [Except.ok.injEq] at hok
          subst hok
          obtain ⟨hmem, hps, hmax⟩ := hcore.1 r hfind
          obtain ⟨husable, htype⟩ := (isUsableHttp_eq r).mp hps
          refine ⟨hmem, husable, htype, ?_⟩
          intro t ht h1 h2
          exact hmax t ht ((isUsableHttp_eq t).mpr ⟨h1, h2⟩)
      · rintro ⟨t, ht, h1, h2⟩
        obtain ⟨s, hfind⟩ := hcore.2 ⟨t, ht, (isUsableHttp_eq t).mpr ⟨h1, h2⟩⟩
        refine ⟨s, ?_⟩
        rw [hsel, hfind]
      · intro hnone
        rw [hsel]
        cases hfind : (sources.mergeSort (fun a b =>
            decide (httpBonus b + b.get_selection_score ≤
              httpBonus a + a.get_selection_score))).find? isUsableHttp with
        | none => exact ⟨"No usable HTTP sources found", rfl⟩
        | some r =>
          obtain ⟨hmem, hps, -⟩ := hcore.1 r hfind
          obtain ⟨husable, htype⟩ := (isUsableHttp_eq r).mp hps
          exact absurd ⟨husable, htype⟩ (hnone r hmem)

/-- Witness for C2: the amended theorem applied to a singleton list with a
usable direct source. -/
theorem c2_witness :
    exampleDirectSource ∈ [exampleDirectSource] ∧
    exampleDirectSource.is_usable = true ∧
    (exampleDirectSource.source_type = SourceType.direct ∨
      exampleDirectSource.source_type = SourceType.mirror) ∧
    ∀ t ∈ [exampleDirectSource], t.is_usable = true →
      (t.source_type = SourceType.direct ∨ t.source_type = SourceType.mirror) →
      t.get_selection_score ≤ exampleDirectSource.get_selection_score :=
  (c2_select_best_source_http_only [exampleDirectSource] exampleHttpOptions).1
    exampleDirectSource
    (by simp [select_best_source, List.mergeSort_singleton]; decide)

/-! ## Helper lemmas: the retry loop of DownloadEngine::download -/

theorem downloadLoop_all_err (eng : DownloadEngine) (id : String)
    (req : DownloadRequest) (f : Nat → AttemptOutcome)
    (v : String → String → ChecksumType → Except String Bool)
    (e : Nat → String) (b : Nat → Nat) :
    ∀ fuel attempt, attempt + 1 ≤ eng.max_retries →
      (∀ k, attempt < k → k ≤ eng.max_retries →
        f k = AttemptOutcome.err (e k) (b k)) →
      (downloadLoop eng id req f v fuel attempt).2.success = false ∧
      (downloadLoop eng id req f v fuel attempt).2.bytes_downloaded = 0 ∧
      (downloadLoop eng id req f v fuel attempt).2.checksum_verified = false := by
  intro fuel
  induction fuel with
  | zero => intro attempt _ _; exact ⟨rfl, rfl, rfl⟩
  | succ fuel ih =>
    intro attempt hle h
    have hk := h (attempt + 1) (by omega) hle
    by_cases hguard : eng.max_retries ≤ attempt + 1
    · simp [downloadLoop, hk, hguard]
    · simp only [downloadLoop, hk, if_neg hguard]
      exact ih (attempt + 1) (by omega) (fun k hk1 hk2 => h k (by omega) hk2)

theorem downloadLoop_success (eng : DownloadEngine) (id : String)
    (req : DownloadRequest) (f : Nat → AttemptOutcome)
    (v : String → String → ChecksumType → Except String Bool)
    (e : Nat → String) (b : Nat → Nat) (k n : Nat)
    (hkmax : k ≤ eng.max_retries) (hok : f k = AttemptOutcome.ok n) :
    ∀ fuel attempt, attempt < k → k ≤ attempt + fuel →
      (∀ j, attempt < j → j < k → f j = AttemptOutcome.err (e j) (b j)) →
      ∃ pre,
        downloadLoop eng id req f v fuel attempt =
          (pre ++ (finishSuccess id req v n).1, (finishSuccess id req v n).2) ∧
        ∀ ev ∈ pre, ∃ a,
          ev = DownloadProgress.retry id a eng.max_retries eng.retry_delay := by
  intro fuel
  induction fuel with
  | zero => intro attempt h1 h2 _; omega
  | succ fuel ih =>
    intro attempt h1 h2 herr
    by_cases hak : attempt + 1 = k
    · refine ⟨[], ?_, by simp⟩
      simp only [downloadLoop, hak, hok, List.nil_append]
    · have hlt : attempt + 1 < k := by omega
      have hfe := herr (attempt + 1) (by omega) hlt
      have hguard : ¬ eng.max_retries ≤ attempt + 1 := by omega
      obtain ⟨pre, heq, hall⟩ :=
        ih (attempt + 1) hlt (by omega) (fun j hj1 hj2 => herr j (by omega) hj2)
      refine ⟨DownloadProgress.retry id (attempt + 1) eng.max_retries
        eng.retry_delay :: pre, ?_, ?_⟩
      · simp only [downloadLoop, hfe, if_neg hguard, heq, List.cons_append]
      · intro ev hev
        rcases List.mem_cons.mp hev with h | h
        · exact ⟨attempt + 1, h⟩
        · exact hall ev h

theorem download_success_shape (eng : DownloadEngine) (id : String)
    (req : DownloadRequest) (f : Nat → AttemptOutcome)
    (v : String → String → ChecksumType → Except String Bool)
    (e : Nat → String) (b : Nat → Nat) (k n : Nat)
    (hk1 : 1 ≤ k) (hkmax : k ≤ eng.max_retries)
    (hok : f k = AttemptOutcome.ok n)
    (herr : ∀ j, 1 ≤ j → j < k → f j = AttemptOutcome.err (e j) (b j)) :
    ∃ pre,
      download eng id req f v =
        (DownloadProgress.started id req.url req.output_path ::
          (pre ++ (finishSuccess id req v n).1), (finishSuccess id req v n).2) ∧
      ∀ ev ∈ pre, ∃ a,
        ev = DownloadProgress.retry id a eng.max_retries eng.retry_delay := by
  obtain ⟨pre, heq, hall⟩ :=
    downloadLoop_success eng id req f v e b k n hkmax hok
      (eng.max_retries + 1) 0 (by omega) (by omega)
      (fun j hj1 hj2 => herr j (by omega) hj2)
  exact ⟨pre, by simp only [download, heq], hall⟩

/-! ## Claim C1: checksum mismatch does not fail the download -/

/-- Claim C1: when the transfer succeeds at some attempt `k` within the
retry budget, the request carries both an expected checksum and a
checksum type, and verification reports a mismatch, `download` emits
`VerifyingChecksum` then `ChecksumFailed` then `Completed`, and still
returns `success = true` with `checksum_verified = false`. -/
theorem c1_checksum_mismatch_still_success (eng : DownloadEngine) (id : String)
    (req : DownloadRequest) (f : Nat → AttemptOutcome)
    (v : String → String → ChecksumType → Except String Bool)
    (e : Nat → String) (b : Nat → Nat) (k n : Nat)
    (exp : String) (ct : ChecksumType)
    (hexp : req.expected_checksum = some exp)
    (hct : req.checksum_type = some ct)
    (hv : v req.output_path exp ct = Except.ok false)
    (hk1 : 1 ≤ k) (hkmax : k ≤ eng.max_retries)
    (hok : f k = AttemptOutcome.ok n)
    (herr : ∀ j, 1 ≤ j → j < k → f j = AttemptOutcome.err (e j) (b j)) :
    (∃ pre,
      (download eng id req f v).1 =
        DownloadProgress.started id req.url req.output_path ::
          (pre ++ [DownloadProgress.verifyingChecksum id,
            DownloadProgress.checksumFailed id exp,
            DownloadProgress.completed id n false]) ∧
      ∀ ev ∈ pre, ∃ a,
        ev = DownloadProgress.retry id a eng.max_retries eng.retry_delay)
    ∧ (download eng id req f v).2 =
        ⟨true, n, none, false⟩ := by
  have hfin : finishSuccess id req v n =
      ([DownloadProgress.verifyingChecksum id,
        DownloadProgress.checksumFailed id exp,
        DownloadProgress.completed id n false],
       ⟨true, n, none, false⟩) := by
    simp [finishSuccess, hexp, hct, hv]
  obtain ⟨pre, heq, hall⟩ :=
    download_success_shape eng id req f v e b k n hk1 hkmax hok herr
  rw [hfin] at heq
  exact ⟨⟨pre, by rw [heq], hall⟩, by rw [heq]⟩

/-- Witness for C1: first attempt succeeds, verification says false. -/
theorem c1_witness :
    (∃ pre,
      (download DownloadEngine.new "t" exampleChecksumRequest
        (fun _ => AttemptOutcome.ok 10) (fun _ _ _ => Except.ok false)).1 =
        DownloadProgress.started "t" exampleChecksumRequest.url
            exampleChecksumRequest.output_path ::
          (pre ++ [DownloadProgress.verifyingChecksum "t",
            DownloadProgress.checksumFailed "t" "aabb",
            DownloadProgress.completed "t" 10 false]) ∧
      ∀ ev ∈ pre, ∃ a,
        ev = DownloadProgress.retry "t" a DownloadEngine.new.max_retries
          DownloadEngine.new.retry_delay)
    ∧ (download DownloadEngine.new "t" exampleChecksumRequest
        (fun _ => AttemptOutcome.ok 10) (fun _ _ _ => Except.ok false)).2 =
        ⟨true, 10, none, false⟩ :=
  c1_checksum_mismatch_still_success DownloadEngine.new "t"
    exampleChecksumRequest (fun _ => AttemptOutcome.ok 10)
    (fun _ _ _ => Except.ok false) (fun _ => "") (fun _ => 0) 1 10
    "aabb" ChecksumType.sha256 rfl rfl rfl (by omega) (by decide) rfl
    (fun j hj1 hj2 => absurd hj2 (by omega))

/-! ## Claim C4: the retry budget -/

/-- Claim C4: with the engine built by `DownloadEngine::new`
(`max_retries = 3`, delay 2s), a download whose every attempt fails emits
`Started`, then exactly `max_retries - 1 = 2` `Retry` events carrying the
attempt number, `max_retries` and the 2-second delay, then exactly one
`Failed` event with `attempts = 3`, and returns a failed result. -/
theorem c4_retry_budget (id : String) (req : DownloadRequest)
    (f : Nat → AttemptOutcome)
    (v : String → String → ChecksumType → Except String Bool)
    (e : Nat → String) (b : Nat → Nat)
    (h : ∀ k, 1 ≤ k → k ≤ 3 → f k = AttemptOutcome.err (e k) (b k)) :
    download DownloadEngine.new id req f v =
      ([DownloadProgress.started id req.url req.output_path,
        DownloadProgress.retry id 1 3 2,
        DownloadProgress.retry id 2 3 2,
        DownloadProgress.failed id (e 3) 3],
       ⟨false, 0, some (e 3), false⟩) := by
  have h1 := h 1 (by omega) (by omega)
  have h2 := h 2 (by omega) (by omega)
  have h3 := h 3 (by omega) (by omega)
  simp [download, downloadLoop, DownloadEngine.new, h1, h2, h3]

/-- Witness for C4: constant failing attempts. -/
theorem c4_witness :
    download DownloadEngine.new "t" examplePlainRequest
      (fun _ => AttemptOutcome.err "boom" 7)
      (fun _ _ _ => Except.ok true) =
      ([DownloadProgress.started "t" examplePlainRequest.url
          examplePlainRequest.output_path,
        DownloadProgress.retry "t" 1 3 2,
        DownloadProgress.retry "t" 2 3 2,
        DownloadProgress.failed "t" "boom" 3],
       ⟨false, 0, some "boom", false⟩) :=
  c4_retry_budget "t" examplePlainRequest (fun _ => AttemptOutcome.err "boom" 7)
    (fun _ _ _ => Except.ok true) (fun _ => "boom") (fun _ => 7)
    (fun _ _ _ => rfl)

/-! ## Claim C9: no checksum in the request still reports verified -/

/-- Claim C9: when the request carries no expected checksum or no
checksum type and the transfer succeeds, no verification event is emitted
(the event trace is `Started`, retries only, then `Completed`), yet both
the `Completed` event and the returned result report
`checksum_verified = true`. -/
theorem c9_no_checksum_reports_verified (eng : DownloadEngine) (id : String)
    (req : DownloadRequest) (f : Nat → AttemptOutcome)
    (v : String → String → ChecksumType → Except String Bool)
    (e : Nat → String) (b : Nat → Nat) (k n : Nat)
    (hnone : req.expected_checksum = none ∨ req.checksum_type = none)
    (hk1 : 1 ≤ k) (hkmax : k ≤ eng.max_retries)
    (hok : f k = AttemptOutcome.ok n)
    (herr : ∀ j, 1 ≤ j → j < k → f j = AttemptOutcome.err (e j) (b j)) :
    (∃ pre,
      (download eng id req f v).1 =
        DownloadProgress.started id req.url req.output_path ::
          (pre ++ [DownloadProgress.completed id n true]) ∧
      ∀ ev ∈ pre, ∃ a,
        ev = DownloadProgress.retry id a eng.max_retries eng.retry_delay)
    ∧ (download eng id req f v).2 = ⟨true, n, none, true⟩ := by
  have hfin : finishSuccess id req v n =
      ([DownloadProgress.completed id n true], ⟨true, n, none, true⟩) := by
    rcases hnone with h | h
    · simp [finishSuccess, h]
    · cases hec : req.expected_checksum <;> simp [finishSuccess, h, hec]
  obtain ⟨pre, heq, hall⟩ :=
    download_success_shape eng id req f v e b k n hk1 hkmax hok herr
  rw [hfin] at heq
  exact ⟨⟨pre, by rw [heq], hall⟩, by rw [heq]⟩

/-- Witness for C9: a request without checksum, first attempt succeeds. -/
theorem c9_witness :
    (∃ pre,
      (download DownloadEngine.new "t" examplePlainRequest
        (fun _ => AttemptOutcome.ok 10) (fun _ _ _ => Except.ok false)).1 =
        DownloadProgress.started "t" examplePlainRequest.url
            examplePlainRequest.output_path ::
          (pre ++ [DownloadProgress.completed "t" 10 true]) ∧
      ∀ ev ∈ pre, ∃ a,
        ev = DownloadProgress.retry "t" a DownloadEngine.new.max_retries
          DownloadEngine.new.retry_delay)
    ∧ (download DownloadEngine.new "t" examplePlainRequest
        (fun _ => AttemptOutcome.ok 10) (fun _ _ _ => Except.ok false)).2 =
        ⟨true, 10, none, true⟩ :=
  c9_no_checksum_reports_verified DownloadEngine.new "t" examplePlainRequest
    (fun _ => AttemptOutcome.ok 10) (fun _ _ _ => Except.ok false)
    (fun _ => "") (fun _ => 0) 1 10 (Or.inl rfl) (by omega) (by decide) rfl
    (fun j hj1 hj2 => absurd hj2 (by omega))

/-! ## Claim C10: failed downloads report zero bytes, unverified -/

/-- Claim C10: when every attempt within the retry budget fails — however
many bytes each failed attempt actually wrote, which the `err` outcomes
carry and the engine ignores — the returned result reports
`success = false`, `bytes_downloaded = 0` and `checksum_verified = false`. -/
theorem c10_failed_result_fields (eng : DownloadEngine) (id : String)
    (req : DownloadRequest) (f : Nat → AttemptOutcome)
    (v : String → String → ChecksumType → Except String Bool)
    (e : Nat → String) (b : Nat → Nat)
    (hm : 1 ≤ eng.max_retries)
    (h : ∀ k, 1 ≤ k → k ≤ eng.max_retries →
      f k = AttemptOutcome.err (e k) (b k)) :
    (download eng id req f v).2.success = false ∧
    (download eng id req f v).2.bytes_downloaded = 0 ∧
    (download eng id req f v).2.checksum_verified = false := by
  have := downloadLoop_all_err eng id req f v e b (eng.max_retries + 1) 0
    (by omega) (fun k hk1 hk2 => h k hk1 hk2)
  simpa [download] using this

/-- Witness for C10: attempts that wrote 7 bytes each before failing. -/
theorem c10_witness :
    (download DownloadEngine.new "t" examplePlainRequest
      (fun _ => AttemptOutcome.err "boom" 7)
      (fun _ _ _ => Except.ok true)).2.success = false ∧
    (download DownloadEngine.new "t" examplePlainRequest
      (fun _ => AttemptOutcome.err "boom" 7)
      (fun _ _ _ => Except.ok true)).2.bytes_downloaded = 0 ∧
    (download DownloadEngine.new "t" examplePlainRequest
      (fun _ => AttemptOutcome.err "boom" 7)
      (fun _ _ _ => Except.ok true)).2.checksum_verified = false :=
  c10_failed_result_fields DownloadEngine.new "t" examplePlainRequest
    (fun _ => AttemptOutcome.err "boom" 7) (fun _ _ _ => Except.ok true)
    (fun _ => "boom") (fun _ => 7) (by decide) (fun _ _ _ => rfl)

/-! ## Claim C6: the HTTP status gate of one attempt -/

/-- Claim C6 (counterexample): a 204 response does not fail the attempt,
although 204 is neither 200 nor 206 — the code accepts every success
status (`StatusCode::is_success`, i.e. 200..=299). -/
theorem c6_counterexample :
    download_attempt 0 ⟨204, [Except.ok 5]⟩ = Except.ok 5 ∧
    ¬((204 : Nat) = 200 ∨ (204 : Nat) = 206) := by
  constructor
  · decide
  · decide

/-- Claim C6 (amended): an attempt gets past the status check exactly
when the status is in 200..=299 (the explicit extra check for 206 is
redundant, 206 being a success status); any status outside that range
fails the attempt with the status error. -/
theorem c6_status_gate_2xx (existing : Nat) (env : AttemptEnv) :
    ((∃ n, download_attempt existing env = Except.ok n) →
      200 ≤ env.status ∧ env.status ≤ 299)
    ∧ (¬(200 ≤ env.status ∧ env.status ≤ 299) →
        download_attempt existing env =
          Except.error ("HTTP request failed with status: " ++ toString env.status))
    ∧ ((200 ≤ env.status ∧ env.status ≤ 299) →
        download_attempt existing env = streamChunks existing env.chunks) := by
  by_cases h2xx : 200 ≤ env.status ∧ env.status ≤ 299
  · have hcond : ¬(¬(200 ≤ env.status ∧ env.status ≤ 299) ∧ env.status ≠ 206) := by
      intro hc
      exact hc.1 h2xx
    refine ⟨fun _ => h2xx, fun hn => absurd h2xx hn, fun _ => ?_⟩
    simp only [download_attempt, if_neg hcond]
  · have h206 : env.status ≠ 206 := by omega
    have hcond : ¬(200 ≤ env.status ∧ env.status ≤ 299) ∧ env.status ≠ 206 :=
      ⟨h2xx, h206⟩
    refine ⟨?_, fun _ => ?_, fun hp => absurd hp h2xx⟩
    · rintro ⟨n, hn⟩
      rw [download_attempt.eq_def, if_pos hcond] at hn
      exact absurd hn (by simp)
    · simp only [download_attempt, if_pos hcond]

/-- Witness for C6: a 404 response fails with the status error. -/
theorem c6_witness :
    download_attempt 0 ⟨404, []⟩ =
      Except.error ("HTTP request failed with status: " ++ toString (404 : Nat)) :=
  (c6_status_gate_2xx 0 ⟨404, []⟩).2.1 (by decide)

/-! ## Claim C7: IsoRegistry::generate_filename -/

/-- Claim C7 (counterexample): a `/` adjacent to the variant placeholder
is not stripped when the variant is absent — only `-` and `_` separators
are; the claimed result drops the slash, the code keeps it. -/
theorem c7_counterexample :
    generate_filename "d" "{variant}/x-{version}-{arch}.iso" "1" "a" none =
      "/x-1-a.iso" ∧
    ("/x-1-a.iso" : String) ≠ "x-1-a.iso" := by
  constructor
  · decide
  · decide

/-- Claim C7 (amended): `generate_filename` substitutes the version, the
architecture and, when given, the variant; when the variant is absent it
strips the placeholder together with one adjacent `-` or `_` separator
(never `/`), else removes the bare placeholder; in particular the spec's
two round-trip instances hold. -/
theorem c7_generate_filename :
    generate_filename "ubuntu" "ubuntu-{version}-{variant}-{arch}.iso" "22.04"
      "amd64" (some "desktop") = "ubuntu-22.04-desktop-amd64.iso" ∧
    generate_filename "arch" "archlinux-{version}-{arch}.iso" "2024.06.01"
      "x86_64" none = "archlinux-2024.06.01-x86_64.iso" ∧
    generate_filename "ubuntu" "ubuntu-{version}-{variant}-{arch}.iso" "22.04"
      "amd64" none = "ubuntu-22.04-amd64.iso" ∧
    generate_filename "d" "a_{variant}.iso" "1" "x" none = "a.iso" ∧
    generate_filename "d" "{variant}-a-{version}.iso" "1" "x" none = "a-1.iso" ∧
    generate_filename "d" "{variant}_a_{version}.iso" "1" "x" none = "a_1.iso" ∧
    generate_filename "d" "c{variant}d-{version}" "1" "x" none = "cd-1" := by
  refine ⟨?_, ?_, ?_, ?_, ?_, ?_, ?_⟩ <;> decide

/-! ## Claim C8: ChecksumVerifier::verify_file / calculate_checksum -/

theorem charLower_hexDigitChar (m : Nat) (hm : m < 16) :
    charLower (hexDigitChar m) = hexDigitChar m := by
  interval_cases m <;> decide

theorem strToLower_toHexLower (bytes : List Nat) :
    strToLower (toHexLower bytes) = toHexLower bytes := by
  have h : ∀ l : List Nat,
      (l.foldr (fun byte acc =>
        hexDigitChar (byte / 16 % 16) :: hexDigitChar (byte % 16) :: acc) []).map
          charLower =
      l.foldr (fun byte acc =>
        hexDigitChar (byte / 16 % 16) :: hexDigitChar (byte % 16) :: acc) [] := by
    intro l
    induction l with
    | nil => rfl
    | cons byte rest ih =>
      simp only [List.foldr_cons, List.map_cons]
      rw [charLower_hexDigitChar _ (Nat.mod_lt _ (by omega)),
        charLower_hexDigitChar _ (Nat.mod_lt _ (by omega)), ih]
  simp only [strToLower, toHexLower, String.toList]
  exact congrArg String.mk (h bytes)

/-- Claim C8: `verify_file` returns `ok true` exactly when
`calculate_checksum` succeeds and its digest equals the expectation
case-insensitively (`ok false` exactly on a successful computation with a
different digest); every `calculate_checksum` error propagates unchanged
through `verify_file`; an open error or a read error makes both return an
error; and every successful digest is already lowercase. -/
theorem c8_verify_file_spec (digest : ChecksumType → List Nat → List Nat)
    (file : FileModel) (expected : String) (ct : ChecksumType) :
    (verify_file digest file expected ct = Except.ok true ↔
      ∃ s, calculate_checksum digest file ct = Except.ok s ∧
        strToLower s = strToLower expected)
    ∧ (verify_file digest file expected ct = Except.ok false ↔
      ∃ s, calculate_checksum digest file ct = Except.ok s ∧
        strToLower s ≠ strToLower expected)
    ∧ (∀ e, calculate_checksum digest file ct = Except.error e →
        verify_file digest file expected ct = Except.error e)
    ∧ (∀ e, file = Except.error e →
        calculate_checksum digest file ct =
          Except.error ("Failed to open file: " ++ e) ∧
        verify_file digest file expected ct =
          Except.error ("Failed to open file: " ++ e))
    ∧ (∀ reads e, file = Except.ok reads → readChunks reads = Except.error e →
        calculate_checksum digest file ct = Except.error e ∧
        verify_file digest file expected ct = Except.error e)
    ∧ (∀ s, calculate_checksum digest file ct = Except.ok s →
        strToLower s = s) := by
  refine ⟨?_, ?_, ?_, ?_, ?_, ?_⟩
  · cases hcalc : calculate_checksum digest file ct with
    | error e => simp [verify_file, hcalc]
    | ok actual =>
      simp only [verify_file, hcalc, Except.ok.injEq]
      constructor
      · intro h
        exact ⟨actual, rfl, by simpa using h.symm⟩
      · rintro ⟨s, hs, heq⟩
        cases hs
        simp [heq]
  · cases hcalc : calculate_checksum digest file ct with
    | error e => simp [verify_file, hcalc]
    | ok actual =>
      simp only [verify_file, hcalc, Except.ok.injEq]
      constructor
      · intro h
        refine ⟨actual, rfl, ?_⟩
        intro hc
        rw [beq_eq_false_iff_ne] at h
        exact h hc
      · rintro ⟨s, hs, hne⟩
        cases hs
        rw [beq_eq_false_iff_ne]
        exact hne
  · intro e h
    simp [verify_file, h]
  · intro e h
    subst h
    exact ⟨rfl, rfl⟩
  · intro reads e hf hr
    subst hf
    constructor
    · simp [calculate_checksum, hr]
    · simp [verify_file, calculate_checksum, hr]
  · intro s h
    rcases hfile : file with e | reads
    · rw [hfile] at h
      simp [calculate_checksum] at h
    · rw [hfile] at h
      cases hreads : readChunks reads with
      | error e => simp [calculate_checksum, hreads] at h
      | ok bytes =>
        simp only [calculate_checksum, hreads, Except.ok.injEq] at h
        rw [← h]
        exact strToLower_toHexLower _

/-- Witness for C8: a one-chunk file hashing (under the identity digest)
to `ab`, checked case-insensitively against `AB`. -/
theorem c8_witness :
    verify_file (fun _ bytes => bytes)
      (Except.ok [Except.ok [171], Except.ok []]) "AB" ChecksumType.sha256 =
      Except.ok true :=
  (c8_verify_file_spec (fun _ bytes => bytes)
    (Except.ok [Except.ok [171], Except.ok []]) "AB" ChecksumType.sha256).1.mpr
    ⟨"ab", by decide, by decide⟩

end Isod
